import Mathlib

/-!
Verification development for the factorized spectral convolution core of the
`fourier_neural_operator` repository (`neuralop/layers/spectral_convolution.py`).

The Python source is shallowly embedded: pure computations become Lean
functions, raised exceptions become `Except String` errors, tensors are
modelled at the shape level as `List Nat` (and, where a claim needs values,
as index functions).  External primitives (`torch.fft`, einsum/broadcast shape
semantics, `tltorch.FactorizedTensor.new`) are modelled from their documented
interfaces; everything else is translated line by line from the source.
-/

set_option autoImplicit false

namespace FNO

/-! ### Numeric dtypes and the einsum-dispatch behaviour of the contraction
strategies (`_contract_dense`, `_contract_dense_separable`, `_contract_cp`,
`_contract_tucker`, `_contract_tt`, source lines 21-130).

Each `_contract_*` function chooses which low-level multiply-and-sum primitive
to run based on the activation dtype.  We embed exactly that choice: the
branch `if x.dtype == torch.complex32: return einsum_complexhalf(...) else:
return tl.einsum(...)`.  `_contract_dense_separable` has no such branch: its
body is the single expression `x * weight` (an element-wise tensor product),
so it never invokes either einsum primitive. -/

/-- Torch dtypes relevant to the layer.  `complex32` is torch's reduced
precision complex kind (alias `torch.chalf`). -/
inductive DType
  | float32
  | float16
  | bfloat16
  | complex32
  | complex64
  | complex128
deriving DecidableEq, Repr

/-- Which low-level numeric primitive a contraction strategy executes. -/
inductive EinsumImpl
  | einsumComplexhalf
  | tlEinsum
  | elementwiseMul
deriving DecidableEq, Repr

/-- Primitive chosen by `_contract_dense` (source lines 42-46) as a function
of the activation dtype. -/
def contract_dense_impl (xDtype : DType) : EinsumImpl :=
  if xDtype = DType.complex32 then EinsumImpl.einsumComplexhalf else EinsumImpl.tlEinsum

/-- Primitive chosen by `_contract_dense_separable` (source lines 48-51): its
body is `x * weight`, an element-wise multiply, for every dtype. -/
def contract_dense_separable_impl (_ : DType) : EinsumImpl :=
  EinsumImpl.elementwiseMul

/-- Primitive chosen by `_contract_cp` (source lines 68-71). -/
def contract_cp_impl (xDtype : DType) : EinsumImpl :=
  if xDtype = DType.complex32 then EinsumImpl.einsumComplexhalf else EinsumImpl.tlEinsum

/-- Primitive chosen by `_contract_tucker` (source lines 98-101). -/
def contract_tucker_impl (xDtype : DType) : EinsumImpl :=
  if xDtype = DType.complex32 then EinsumImpl.einsumComplexhalf else EinsumImpl.tlEinsum

/-- Primitive chosen by `_contract_tt` (source lines 127-130). -/
def contract_tt_impl (xDtype : DType) : EinsumImpl :=
  if xDtype = DType.complex32 then EinsumImpl.einsumComplexhalf else EinsumImpl.tlEinsum

/-! ### `get_contract_fun` (source lines 133-175). -/

/-- Python's `str.lower` builtin, modelled characterwise (all names involved
are ASCII). -/
def pyLower (s : String) : String := String.mk (s.data.map Char.toLower)

/-- Python's `str.endswith` builtin: suffix test on the character list. -/
def pyEndsWith (s suffix : String) : Bool := suffix.data.isSuffixOf s.data

/-- The five contraction strategies the dispatcher can return. -/
inductive ContractFn
  | dense
  | denseSeparable
  | cp
  | tucker
  | tt
deriving DecidableEq, Repr

/-- Runtime representation of the spectral weight as seen by
`get_contract_fun`: a plain torch tensor, a `tltorch.FactorizedTensor`
carrying a class name, or some other Python object with a class name. -/
inductive WeightRep
  | tensor
  | factorized (name : String)
  | other (className : String)
deriving DecidableEq, Repr

/-- Shallow embedding of `get_contract_fun(weight, implementation, separable)`
(source lines 133-175).  A raised `ValueError` becomes `Except.error` with
the message text of the source. -/
def get_contract_fun (weight : WeightRep) (implementation : String)
    (separable : Bool) : Except String ContractFn :=
  if implementation = "reconstructed" then
    if separable then Except.ok ContractFn.denseSeparable
    else Except.ok ContractFn.dense
  else if implementation = "factorized" then
    match weight with
    | WeightRep.tensor => Except.ok ContractFn.dense
    | WeightRep.factorized name =>
      if pyEndsWith (pyLower name) "dense" then Except.ok ContractFn.dense
      else if pyEndsWith (pyLower name) "tucker" then Except.ok ContractFn.tucker
      else if pyEndsWith (pyLower name) "tt" then Except.ok ContractFn.tt
      else if pyEndsWith (pyLower name) "cp" then Except.ok ContractFn.cp
      else Except.error ("Got unexpected factorized weight type " ++ name)
    | WeightRep.other className =>
      Except.error ("Got unexpected weight type of class " ++ className)
  else
    Except.error ("Got implementation=" ++ implementation ++
      ", expected \"reconstructed\" or \"factorized\"")

/-! ### The `n_modes` setter (source lines 361-376).

`@n_modes.setter` first turns an integer argument into a one-element list,
otherwise copies the argument into a fresh list, and then rewrites the last
entry `n_modes[-1] = n_modes[-1] // 2 + 1` when the layer is configured for
real spatial data (`complex_data=False`). -/

/-- Rewrite the last element of a list (Python `l[-1] = f(l[-1])`).  On the
empty list Python raises `IndexError`; the claims only concern nonempty
lists, on which this function agrees with the source. -/
def updateLast {α : Type} (f : α → α) : List α → List α
  | [] => []
  | [a] => [f a]
  | a :: b :: rest => a :: updateLast f (b :: rest)

/-- The list-argument body of the `n_modes` setter (source lines 369-376). -/
def nModesSetterList (complex_data : Bool) (n_modes : List Nat) : List Nat :=
  if complex_data then n_modes
  else updateLast (fun m => m / 2 + 1) n_modes

/-- The full `n_modes` setter (source lines 365-376): an `int` argument is
first replaced by the one-element list (lines 367-368). -/
def nModesSetterArg (complex_data : Bool) : Nat ⊕ List Nat → List Nat
  | Sum.inl m => nModesSetterList complex_data [m]
  | Sum.inr l => nModesSetterList complex_data l

/-! ### Python slice objects with step 1 and their resolution.

The forward pass only builds `slice(a, b)` objects with step `None`; we embed
Python's index-clamping rules for that case (`slice.indices`). -/

/-- A Python `slice(start, stop)` with implicit step 1. -/
structure PySlice where
  start : Option Int
  stop : Option Int
deriving DecidableEq, Repr

/-- Python's slice-endpoint resolution against an axis of length `n`:
negative indices count from the end, then the result is clamped to
`[0, n]`. -/
def clampIdx (n : Nat) (i : Int) : Nat :=
  (max 0 (min (if i < 0 then (n : Int) + i else i) (n : Int))).toNat

/-- Resolved inclusive lower bound of a slice on an axis of length `n`. -/
def PySlice.startIdx (s : PySlice) (n : Nat) : Nat :=
  match s.start with
  | none => 0
  | some i => clampIdx n i

/-- Resolved exclusive upper bound of a slice on an axis of length `n`. -/
def PySlice.stopIdx (s : PySlice) (n : Nat) : Nat :=
  match s.stop with
  | none => n
  | some i => clampIdx n i

/-- Number of indices selected by a slice on an axis of length `n`. -/
def PySlice.len (s : PySlice) (n : Nat) : Nat :=
  s.stopIdx n - s.startIdx n

/-- `slice(None)`: the whole axis. -/
def sliceAll : PySlice := ⟨none, none⟩

/-- `slice(start//2, -start//2) if start else slice(start, None)` — the
per-axis window used for every centered spatial axis (source lines 431, 434,
449, 451).  Python `//` is floor division and `-start//2` parses as
`(-start)//2`. -/
def modeSlice (start : Int) : PySlice :=
  if start ≠ 0 then ⟨some (Int.fdiv start 2), some (Int.fdiv (-start) 2)⟩
  else ⟨some 0, none⟩

/-- `slice(None, -start) if start else slice(None)` — the window used for the
last (real-FFT) spatial axis (source lines 435, 452). -/
def lastRealSlice (start : Int) : PySlice :=
  if start ≠ 0 then ⟨none, some (-start)⟩ else ⟨none, none⟩

/-- The spatial part of `slices_w`/`slices_x` (source lines 430-435 and
448-452): on complex data every axis gets `modeSlice`; on real data every
axis but the last gets `modeSlice` and the last gets `lastRealSlice`.
Python `starts[-1]` on an empty list raises `IndexError`. -/
def spatialSlices (complex_data : Bool) (starts : List Int) :
    Except String (List PySlice) :=
  if complex_data then Except.ok (starts.map modeSlice)
  else
    match starts with
    | [] => Except.error "IndexError: list index out of range"
    | s :: rest =>
      Except.ok (((s :: rest).dropLast).map modeSlice ++
        [lastRealSlice ((s :: rest).getLastD 0)])

/-- Per-axis start offsets
`starts = [(max_modes - min(size, n_mode)) for (size, n_mode, max_modes) in
zip(fft_size, self.n_modes, self.max_n_modes)]` (source line 422).
`zip` truncates to the shortest list, as does this recursion. -/
def computeStarts : List Nat → List Nat → List Nat → List Int
  | size :: sizes, n_mode :: n_modes, max_modes :: maxs =>
    ((max_modes : Int) - (min size n_mode : Nat)) :: computeStarts sizes n_modes maxs
  | _, _, _ => []

/-- `slices_w` (source lines 426-435): one full slice per channel axis (one
when separable, two otherwise) followed by the spatial windows. -/
def weightSliceList (separable complex_data : Bool) (starts : List Int) :
    Except String (List PySlice) :=
  match spatialSlices complex_data starts with
  | Except.error e => Except.error e
  | Except.ok sp =>
    Except.ok ((if separable then [sliceAll] else [sliceAll, sliceAll]) ++ sp)

/-- `slices_x` (source lines 446-452): full slices for batch and channel
followed by the spatial windows. -/
def xSliceList (complex_data : Bool) (starts : List Int) :
    Except String (List PySlice) :=
  match spatialSlices complex_data starts with
  | Except.error e => Except.error e
  | Except.ok sp => Except.ok ([sliceAll, sliceAll] ++ sp)

/-- Shape of a tensor of shape `shape` indexed by a list of slices: sliced
axes get the slice length, remaining axes are kept; more slices than axes is
an `IndexError`. -/
def sliceShape (shape : List Nat) (slices : List PySlice) :
    Except String (List Nat) :=
  if shape.length < slices.length then
    Except.error "IndexError: too many indices for tensor"
  else
    Except.ok (List.zipWith (fun n s => PySlice.len s n) shape slices ++
      shape.drop slices.length)

/-! ### Broadcasting and contraction shape semantics (external torch/einsum
primitives, modelled from their documented interfaces). -/

/-- Torch broadcasting on reversed (trailing-first) dimension lists. -/
def broadcastDimsRev : List Nat → List Nat → Except String (List Nat)
  | [], ys => Except.ok ys
  | x :: xs, [] => Except.ok (x :: xs)
  | x :: xs, y :: ys =>
    if x = y ∨ x = 1 ∨ y = 1 then
      match broadcastDimsRev xs ys with
      | Except.ok rest => Except.ok ((if x = 1 then y else x) :: rest)
      | Except.error e => Except.error e
    else Except.error "RuntimeError: shapes are not broadcastable"

/-- Torch broadcast of two shapes (trailing axes aligned, a size of 1
stretches to the other size). -/
def broadcastShapes (a b : List Nat) : Except String (List Nat) :=
  match broadcastDimsRev a.reverse b.reverse with
  | Except.ok r => Except.ok r.reverse
  | Except.error e => Except.error e

/-- Whether a tensor of shape `src` may be assigned into a destination view
of shape `dst` (torch copies broadcast the source to the destination). -/
def broadcastsTo (src dst : List Nat) : Bool :=
  match broadcastShapes src dst with
  | Except.ok r => r = dst
  | Except.error _ => false

/-- Output shape of `self._contract(x, weight, separable=separable)`.

For `_contract_dense`, `_contract_cp`, `_contract_tucker` and `_contract_tt`
the einsum equations (source lines 21-130) all map an activation
`(batch, in_channels, modes...)` and a weight of logical shape
`(in_channels, modes...)` (separable) or `(in_channels, out_channels,
modes...)` (non-separable) to `(batch, channels, modes...)`, requiring the
shared channel and mode sizes to agree; rank/bond consistency of factorized
weights is internal to the external weight object.  `_contract_dense_separable`
is the element-wise product `x * weight`, i.e. a broadcast. -/
def contractShape (cf : ContractFn) (separable : Bool) (xs ws : List Nat) :
    Except String (List Nat) :=
  match cf with
  | ContractFn.denseSeparable => broadcastShapes xs ws
  | _ =>
    if separable then
      match xs, ws with
      | b :: c :: ms, c2 :: ms2 =>
        if c = c2 ∧ ms = ms2 then Except.ok (b :: c :: ms)
        else Except.error "RuntimeError: einsum operand shape mismatch"
      | _, _ => Except.error "RuntimeError: einsum operand rank mismatch"
    else
      match xs, ws with
      | b :: c :: ms, c2 :: o :: ms2 =>
        if c = c2 ∧ ms = ms2 then Except.ok (b :: o :: ms)
        else Except.error "RuntimeError: einsum operand shape mismatch"
      | _, _ => Except.error "RuntimeError: einsum operand rank mismatch"

/-! ### Layer state and constructor (`SpectralConv.__init__`, source lines
247-342).

Parameters that only configure the external weight-initialization primitive
(`rank`, `init_std`, `fixed_rank_modes`, `decomposition_kwargs`, `device`,
`dtype`) carry no shape or control-flow information observable by the claims
and are not recorded in the state. -/

/-- Which branch of the weight-creation `if` (source lines 325-330) ran. -/
inductive WeightCreation
  | torchTensorFromShape
  | factorizedNew
deriving DecidableEq, Repr

/-- Python `round`: round half to even, on the exact rational `s * r`. -/
def pyRound (q : Rat) : Int :=
  let f := q.floor
  let r := q - (f : Rat)
  if r < 1/2 then f
  else if 1/2 < r then f + 1
  else if f % 2 = 0 then f else f + 1

/-- Modelled from the spec: `validate_scaling_factor` (from `neuralop/utils.py`,
which is not under `src/`).  Per §3 and §6 of the spec, `output_scaling_factor`
is an optional set of per-axis resize ratios and the default `None` is kept
as `None`; a provided list of per-axis ratios is kept as given. -/
def validate_scaling_factor (osf : Option (List Rat)) (_ : Nat) :
    Option (List Rat) :=
  osf

/-- State recorded by `SpectralConv.__init__` that the claims observe. -/
structure SpectralConvState where
  in_channels : Nat
  out_channels : Nat
  complexData : Bool
  /-- `self._n_modes`, written through the `n_modes` setter. -/
  nModes : List Nat
  /-- `self.order = len(self.n_modes)` (source line 276), fixed at init. -/
  order : Nat
  /-- `self.max_n_modes` (source lines 278-282). -/
  maxNModes : List Nat
  fnoBlockPrecision : String
  outputScalingFactor : Option (List Rat)
  separable : Bool
  fftNorm : String
  /-- Logical shape of the spectral weight (source lines 316-318). -/
  weightShape : List Nat
  /-- Which weight-creation branch ran (source lines 325-330). -/
  weightCreation : WeightCreation
  /-- Runtime representation of `self.weight` as seen by `get_contract_fun`. -/
  weightRep : WeightRep
  /-- `self._contract` (source lines 333-335). -/
  contractFn : ContractFn
  bias : Bool
deriving DecidableEq, Repr

/-- The `ValueError` message of source lines 311-315. -/
def separableErrMsg (in_channels out_channels : Nat) : String :=
  "To use separable Fourier Conv, in_channels must be equal to out_channels, " ++
  "but got in_channels=" ++ toString in_channels ++ " and out_channels=" ++
  toString out_channels

/-- Shallow embedding of `SpectralConv.__init__` (source lines 247-342).

The weight itself is created by the external primitive
`tltorch.FactorizedTensor.new(weight_shape, ..., factorization, dtype=torch.cfloat)`,
which instantiates the complex variant of the requested factorization class,
whose `.name` is the factorization name prefixed with `"Complex"` (e.g.
`"ComplexDense"`); only that name is observable through `get_contract_fun`. -/
def initSpectralConv (in_channels out_channels : Nat) (n_modes : Nat ⊕ List Nat)
    (max_n_modes : Option (Nat ⊕ List Nat)) (bias : Bool) (separable : Bool)
    (output_scaling_factor : Option (List Rat)) (fno_block_precision : String)
    (factorization : Option String) (implementation : String)
    (complex_data : Bool) (fft_norm : String) :
    Except String SpectralConvState :=
  let nModes := nModesSetterArg complex_data n_modes
  let order := nModes.length
  let maxN :=
    match max_n_modes with
    | none => nModes
    | some (Sum.inl m) => [m]
    | some (Sum.inr l) => l
  let osf := validate_scaling_factor output_scaling_factor order
  let factorization2 : Option String :=
    match factorization with
    | none => some "Dense"
    | some f => some f
  if separable ∧ in_channels ≠ out_channels then
    Except.error (separableErrMsg in_channels out_channels)
  else
    let weight_shape :=
      if separable then in_channels :: maxN
      else in_channels :: out_channels :: maxN
    let weightCreation :=
      if factorization2.isNone then WeightCreation.torchTensorFromShape
      else WeightCreation.factorizedNew
    let weightRep :=
      match factorization2 with
      | none => WeightRep.tensor
      | some f => WeightRep.factorized ("Complex" ++ f)
    match get_contract_fun weightRep implementation separable with
    | Except.error e => Except.error e
    | Except.ok cf =>
      Except.ok
        { in_channels := in_channels
          out_channels := out_channels
          complexData := complex_data
          nModes := nModes
          order := order
          maxNModes := maxN
          fnoBlockPrecision := fno_block_precision
          outputScalingFactor := osf
          separable := separable
          fftNorm := fft_norm
          weightShape := weight_shape
          weightCreation := weightCreation
          weightRep := weightRep
          contractFn := cf
          bias := bias }

/-- Assigning to the `n_modes` property of a constructed layer (source lines
365-376): only `self._n_modes` is rewritten; no other field is touched and no
check against `max_n_modes` is performed. -/
def setStateNModes (st : SpectralConvState) (m : Nat ⊕ List Nat) :
    SpectralConvState :=
  { st with nModes := nModesSetterArg st.complexData m }

/-! ### Shape-level embedding of `SpectralConv.forward` (source lines
378-472).

Tensors are tracked by shape.  The external transforms obey: `rfftn` over the
last `order` axes maps spatial sizes `(d1, ..., dk)` to `(d1, ..., dk//2+1)`,
`fftn` preserves sizes, `fftshift` preserves sizes, and
`irfftn`/`ifftn` with `s=mode_sizes` produce exactly `s` (requiring
`len(s) = len(dim)`).  Raised errors become `Except.error`. -/

/-- Result of a forward call: the output shape, plus whether the final
`fftshift` on the output spectrum buffer (source lines 461-462) ran. -/
structure ForwardResult where
  outShape : List Nat
  reverseShiftApplied : Bool
deriving DecidableEq, Repr

/-- Shallow embedding of `SpectralConv.forward(x, output_shape)` (source
lines 378-472), at the level of tensor shapes and control flow.  Dtype
changes (`half`/`chalf`, lines 399-417) do not alter shapes and are elided.
The FFT primitives are modelled on calls where the `order` spatial axes are
exactly the axes after batch and channel. -/
def forwardShape (st : SpectralConvState) (xShape : List Nat)
    (output_shape : Option (List Nat)) : Except String ForwardResult :=
  match xShape with
  | [] => Except.error "ValueError: not enough values to unpack"
  | [_] => Except.error "ValueError: not enough values to unpack"
  | batchsize :: channels :: mode_sizes =>
    if mode_sizes.length ≠ st.order then
      Except.error "RuntimeError: fft dims do not match the spatial axes"
    else if st.order = 0 then
      Except.error "RuntimeError: fftn requires at least one dim"
    else
      let fft_size :=
        if st.complexData then mode_sizes
        else updateLast (fun n => n / 2 + 1) mode_sizes
      let xT := batchsize :: channels :: fft_size
      let outShape0 := batchsize :: st.out_channels :: fft_size
      let starts := computeStarts fft_size st.nModes st.maxNModes
      match weightSliceList st.separable st.complexData starts with
      | Except.error e => Except.error e
      | Except.ok slicesW =>
        match sliceShape st.weightShape slicesW with
        | Except.error e => Except.error e
        | Except.ok wSliced =>
          let weight_start_idx := if st.separable then 1 else 2
          let starts2 := List.zipWith
            (fun (size wmode : Nat) => ((size : Int) - ((min size wmode : Nat) : Int)))
            (xT.drop 2) (wSliced.drop weight_start_idx)
          match xSliceList st.complexData starts2 with
          | Except.error e => Except.error e
          | Except.ok slicesX =>
            match sliceShape xT slicesX, sliceShape outShape0 slicesX with
            | Except.error e, _ => Except.error e
            | _, Except.error e => Except.error e
            | Except.ok xSliced, Except.ok outSliced =>
              match contractShape st.contractFn st.separable xSliced wSliced with
              | Except.error e => Except.error e
              | Except.ok resShape =>
                if broadcastsTo resShape outSliced = false then
                  Except.error "RuntimeError: result does not fit the out_fft slice"
                else
                  let ms1 :=
                    match st.outputScalingFactor, output_shape with
                    | some sf, none =>
                      List.zipWith (fun s r => (pyRound ((s : Rat) * r)).toNat)
                        mode_sizes sf
                    | _, _ => mode_sizes
                  let ms2 :=
                    match output_shape with
                    | some os => os
                    | none => ms1
                  let revShift := decide (1 < st.order)
                  if ms2.length ≠ st.order then
                    Except.error "RuntimeError: irfftn s and dim must have the same length"
                  else
                    let outSpatial := batchsize :: st.out_channels :: ms2
                    if st.bias then
                      match broadcastShapes outSpatial
                          (st.out_channels :: List.replicate st.order 1) with
                      | Except.error e => Except.error e
                      | Except.ok finalShape =>
                        Except.ok ⟨finalShape, revShift⟩
                    else Except.ok ⟨outSpatial, revShift⟩

/-! ### Value-level model of the output spectrum buffer (for the zero-padding
invariant, source lines 418-419, 445-453 and 461-462). -/

/-- A tensor as a shape plus an index function.  Only indices componentwise
below the shape are meaningful. -/
structure PyTensor (α : Type) where
  shape : List Nat
  data : List Nat → α

/-- `torch.zeros(shape)` (source lines 418-419). -/
def zerosTensor (α : Type) [Zero α] (shape : List Nat) : PyTensor α :=
  ⟨shape, fun _ => 0⟩

/-- Whether index `idx` of a tensor of shape `shape` lies inside the window
selected by `slices` (axes beyond the slice list are unconstrained, matching
Python's implicit trailing full slices). -/
def inSliceWindow (slices : List PySlice) (shape idx : List Nat) : Bool :=
  (List.zip slices (List.zip shape idx)).all
    (fun p => decide (p.1.startIdx p.2.1 ≤ p.2.2 ∧ p.2.2 < p.1.stopIdx p.2.1))

/-- Source-tensor index corresponding to destination index `idx` of a sliced
assignment: each sliced axis is shifted down by the slice's start. -/
def relIdx : List PySlice → List Nat → List Nat → List Nat
  | s :: ss, n :: ns, j :: js => (j - s.startIdx n) :: relIdx ss ns js
  | _, _, js => js

/-- `t[slices] = src`: inside the window the value comes from `src` at the
relative index, outside it the old value is kept. -/
def setSlice {α : Type} (t : PyTensor α) (slices : List PySlice)
    (src : PyTensor α) : PyTensor α :=
  ⟨t.shape, fun idx =>
    if inSliceWindow slices t.shape idx then src.data (relIdx slices t.shape idx)
    else t.data idx⟩

/-- Index of the element of the unshifted tensor that `torch.fft.fftshift`
places at `idx`: on each shifted axis of length `n`,
`out[j] = in[(j + n - n/2) % n]`. -/
def fftshiftSrcIdx (shape axes idx : List Nat) : List Nat :=
  ((idx.zip shape).enum).map
    (fun p => if p.1 ∈ axes then (p.2.1 + p.2.2 - p.2.2 / 2) % p.2.2 else p.2.1)

/-- `torch.fft.fftshift(t, dim=axes)` with absolute axis numbers. -/
def fftshiftTensor {α : Type} (t : PyTensor α) (axes : List Nat) : PyTensor α :=
  ⟨t.shape, fun idx => t.data (fftshiftSrcIdx t.shape axes idx)⟩

/-- Absolute axes of `fft_dims[:-1]` on a buffer of rank `order + 2`:
`fft_dims = range(-order, 0)`, so all spatial axes except the last, i.e.
`[2, ..., order]`. -/
def shiftAxes (order : Nat) : List Nat := List.range' 2 (order - 1)

/-- The output spectrum buffer exactly as `forward` has it immediately before
the inverse transform (source lines 418-419, 453, 461-462): zeros, the
contraction result scattered into the `slices_x` window, then `fftshift`
over all spatial axes but the last when `order > 1`. -/
def outFftBeforeInverse {α : Type} [Zero α] (order : Nat)
    (outShape : List Nat) (slicesX : List PySlice) (result : PyTensor α) :
    PyTensor α :=
  let buf := setSlice (zerosTensor α outShape) slicesX result
  if 1 < order then fftshiftTensor buf (shiftAxes order) else buf

/-! ### Concrete layer states used by several theorems. -/

/-- The layer of the spec's main scenario: `SpectralConv(3, 4, n_modes=[8,8])`
with all other arguments at their defaults. -/
def stC1 : SpectralConvState :=
  { in_channels := 3, out_channels := 4, complexData := false, nModes := [8, 5],
    order := 2, maxNModes := [8, 5], fnoBlockPrecision := "full",
    outputScalingFactor := none, separable := false, fftNorm := "backward",
    weightShape := [3, 4, 8, 5], weightCreation := WeightCreation.factorizedNew,
    weightRep := WeightRep.factorized "ComplexDense",
    contractFn := ContractFn.dense, bias := true }

/-- A 1-D layer `SpectralConv(2, 2, n_modes=[4])` (defaults otherwise):
`_n_modes = [3]` and `max_n_modes = [3]`. -/
def stC6 : SpectralConvState :=
  { in_channels := 2, out_channels := 2, complexData := false, nModes := [3],
    order := 1, maxNModes := [3], fnoBlockPrecision := "full",
    outputScalingFactor := none, separable := false, fftNorm := "backward",
    weightShape := [2, 2, 3], weightCreation := WeightCreation.factorizedNew,
    weightRep := WeightRep.factorized "ComplexDense",
    contractFn := ContractFn.dense, bias := true }

/-! ### Arithmetic and list helper lemmas. -/

theorem fdiv_two_cast (k : Nat) : Int.fdiv (k : Int) 2 = ((k / 2 : Nat) : Int) := by
  cases k with
  | zero => rfl
  | succ j => rfl

theorem fdiv_two_neg_cast (k : Nat) :
    Int.fdiv (-(k : Int)) 2 = -(((k + 1) / 2 : Nat) : Int) := by
  cases k with
  | zero => rfl
  | succ j =>
    show Int.fdiv (Int.negSucc j) 2 = _
    have h : (j + 1 + 1) / 2 = j / 2 + 1 := by omega
    rw [h]
    rfl

theorem updateLast_length {α : Type} (f : α → α) (l : List α) :
    (updateLast f l).length = l.length := by
  induction l with
  | nil => rfl
  | cons a t ih =>
    cases t with
    | nil => rfl
    | cons b t2 =>
      show (a :: updateLast f (b :: t2)).length = (a :: b :: t2).length
      simpa using ih

theorem updateLast_getD {α : Type} (f : α → α) (l : List α) (d : α) (i : Nat)
    (h : i + 1 < l.length) :
    (updateLast f l).getD i d = l.getD i d := by
  induction l generalizing i with
  | nil => simp at h
  | cons a t ih =>
    cases t with
    | nil => simp at h
    | cons b t2 =>
      cases i with
      | zero => rfl
      | succ j =>
        show (updateLast f (b :: t2)).getD j d = (b :: t2).getD j d
        exact ih j (by simpa using Nat.lt_of_succ_lt_succ h)

theorem updateLast_getLastD {α : Type} (f : α → α) (a : α) (l : List α) (d : α) :
    (updateLast f (a :: l)).getLastD d = f ((a :: l).getLastD d) := by
  induction l generalizing a d with
  | nil => rfl
  | cons b t ih =>
    show (a :: updateLast f (b :: t)).getLastD d = _
    rw [List.getLastD_cons, ih b a]
    have hx : (b :: t).getLast?.isSome := List.getLast?_isSome.mpr (by simp)
    obtain ⟨x, hxe⟩ := Option.isSome_iff_exists.mp hx
    simp [List.getLastD_cons, hxe]

theorem computeStarts_getD (fs nm mx : List Nat) (i : Nat)
    (h : i < (computeStarts fs nm mx).length) :
    (computeStarts fs nm mx).getD i 0 =
      ((mx.getD i 0 : Nat) : Int) - ((min (fs.getD i 0) (nm.getD i 0) : Nat) : Int) := by
  induction fs generalizing nm mx i with
  | nil => simp [computeStarts] at h
  | cons a fs ih =>
    cases nm with
    | nil => simp [computeStarts] at h
    | cons b nm =>
      cases mx with
      | nil => simp [computeStarts] at h
      | cons c mx =>
        cases i with
        | zero => rfl
        | succ j =>
          show (computeStarts fs nm mx).getD j 0 = _
          have hj : j < (computeStarts fs nm mx).length := by
            have := h
            simp only [computeStarts, List.length_cons] at this
            omega
          exact ih nm mx j hj

/-! ### Claim theorems. -/

/-- C1: a `SpectralConv` constructed with `in_channels=3`, `out_channels=4`,
`n_modes=[8,8]`, `complex_data=False`, `separable=False`, `factorization=None`
and all other arguments at their defaults maps any input tensor of shape
`(2,3,16,16)` (the shape-level model covers every tensor of that shape) with
`output_shape=None` to a tensor of shape `(2,4,16,16)`, raising no exception
(no `Except.error` at any step of the embedded forward pass). -/
theorem C1_forward_scenario_shape :
    initSpectralConv 3 4 (Sum.inr [8, 8]) none true false none "full" none
      "reconstructed" false "backward" = Except.ok stC1 ∧
    forwardShape stC1 [2, 3, 16, 16] none =
      Except.ok ⟨[2, 4, 16, 16], true⟩ :=
  ⟨rfl, rfl⟩

/-- C2: for every flag and every nonempty per-axis mode list, the `n_modes`
setter stores each entry unchanged except the last; the last is stored as
`m_k / 2 + 1` when `complex_data=False` and as `m_k` when `complex_data=True`;
and assigning a single integer `m` is the same as assigning `[m]`. -/
theorem C2_n_modes_setter (cd : Bool) (m : List Nat) (h : m ≠ []) :
    (nModesSetterList cd m).length = m.length ∧
    (∀ i, i + 1 < m.length → (nModesSetterList cd m).getD i 0 = m.getD i 0) ∧
    (nModesSetterList cd m).getLastD 0 =
      (if cd then m.getLastD 0 else m.getLastD 0 / 2 + 1) ∧
    (∀ k : Nat, nModesSetterArg cd (Sum.inl k) = nModesSetterArg cd (Sum.inr [k])) := by
  obtain ⟨a, t, rfl⟩ : ∃ a t, m = a :: t := by
    cases m with
    | nil => exact absurd rfl h
    | cons a t => exact ⟨a, t, rfl⟩
  refine ⟨?_, ?_, ?_, fun k => rfl⟩
  · cases cd with
    | false => simpa [nModesSetterList] using updateLast_length (fun n => n / 2 + 1) (a :: t)
    | true => rfl
  · intro i hi
    cases cd with
    | false => simpa [nModesSetterList] using
        updateLast_getD (fun n => n / 2 + 1) (a :: t) 0 i hi
    | true => rfl
  · cases cd with
    | false => simpa [nModesSetterList] using
        updateLast_getLastD (fun n => n / 2 + 1) a t 0
    | true => simp [nModesSetterList]

/-- C2 witness: the setter at `complex_data=False` on `[4, 8]` keeps the
first axis and stores `8 / 2 + 1 = 5` on the last. -/
theorem C2_n_modes_setter_witness :
    (nModesSetterList false [4, 8]).getD 0 0 = 4 ∧
    (nModesSetterList false [4, 8]).getLastD 0 = 8 / 2 + 1 := by
  have h := C2_n_modes_setter false [4, 8] (by simp)
  exact ⟨h.2.1 0 (by simp), by simpa using h.2.2.1⟩

/-- C6 counterexample: the claim says `n_modes[axis] ≤ max_n_modes[axis]`
always holds because an exceeding assignment fails or is clipped.  On the
1-D layer `SpectralConv(2, 2, n_modes=[4])` (`max_n_modes = [3]` after the
real-FFT adjustment), assigning `n_modes = [8]` succeeds, stores `[5]`
unclipped, leaves `max_n_modes = [3]`, and `5 ≤ 3` is false. -/
theorem C6_capacity_counterexample :
    initSpectralConv 2 2 (Sum.inr [4]) none true false none "full" none
      "reconstructed" false "backward" = Except.ok stC6 ∧
    (setStateNModes stC6 (Sum.inr [8])).nModes = [5] ∧
    (setStateNModes stC6 (Sum.inr [8])).maxNModes = [3] ∧
    ¬((setStateNModes stC6 (Sum.inr [8])).nModes.getD 0 0 ≤
      (setStateNModes stC6 (Sum.inr [8])).maxNModes.getD 0 0) :=
  ⟨rfl, rfl, rfl, by decide⟩

/-- C6 amended: the `n_modes` setter enforces no capacity policy at all — it
stores the adjusted counts unconditionally (never failing, never clipping)
and leaves `max_n_modes` untouched, so `n_modes[axis] ≤ max_n_modes[axis]`
can be violated by an assignment. -/
theorem C6_setter_no_capacity_policy (st : SpectralConvState) (m : Nat ⊕ List Nat) :
    (setStateNModes st m).nModes = nModesSetterArg st.complexData m ∧
    (setStateNModes st m).maxNModes = st.maxNModes :=
  ⟨rfl, rfl⟩

/-- C7 counterexample: the separable element-wise strategy
`_contract_dense_separable` does not substitute `einsum_complexhalf` on
reduced-precision complex input — its body is the plain element-wise product
`x * weight` for every dtype. -/
theorem C7_separable_counterexample :
    contract_dense_separable_impl DType.complex32 = EinsumImpl.elementwiseMul ∧
    contract_dense_separable_impl DType.complex32 ≠ EinsumImpl.einsumComplexhalf :=
  ⟨rfl, by decide⟩

/-- C7 amended: the dense, CP, Tucker and TT contraction strategies substitute
the dedicated reduced-precision implementation `einsum_complexhalf` exactly
when the activation dtype is `torch.complex32` and use the general
`tl.einsum` primitive otherwise; the separable element-wise form instead
performs a plain element-wise multiplication for every dtype and never calls
either einsum primitive. -/
theorem C7_halfprec_dispatch (dt : DType) :
    contract_dense_impl dt =
      (if dt = DType.complex32 then EinsumImpl.einsumComplexhalf else EinsumImpl.tlEinsum) ∧
    contract_cp_impl dt =
      (if dt = DType.complex32 then EinsumImpl.einsumComplexhalf else EinsumImpl.tlEinsum) ∧
    contract_tucker_impl dt =
      (if dt = DType.complex32 then EinsumImpl.einsumComplexhalf else EinsumImpl.tlEinsum) ∧
    contract_tt_impl dt =
      (if dt = DType.complex32 then EinsumImpl.einsumComplexhalf else EinsumImpl.tlEinsum) ∧
    contract_dense_separable_impl dt = EinsumImpl.elementwiseMul :=
  ⟨rfl, rfl, rfl, rfl, rfl⟩

/-- C5 counterexample: the claim says the centering shift is reversed only
when an output shape is requested.  On the C1 layer (`order = 2`, no scaling
factor) a forward call with `output_shape=None` requests no output shape,
yet the reverse `fftshift` on the output buffer is applied. -/
theorem C5_reverse_shift_counterexample :
    stC1.outputScalingFactor = none ∧ 1 < stC1.order ∧
    forwardShape stC1 [2, 3, 16, 16] none =
      Except.ok ⟨[2, 4, 16, 16], true⟩ :=
  ⟨rfl, by decide, rfl⟩

/-- C5 amended: in every successful forward call the reverse `fftshift` on
the output spectrum buffer is applied exactly when `order > 1`, regardless
of whether an output shape is requested explicitly or via a scaling
factor (source lines 461-462 condition only on `self.order > 1`). -/
theorem C5_reverse_shift_iff_order_gt_one (st : SpectralConvState)
    (xShape : List Nat) (os : Option (List Nat)) (r : ForwardResult)
    (h : forwardShape st xShape os = Except.ok r) :
    r.reverseShiftApplied = decide (1 < st.order) := by
  simp only [forwardShape] at h
  repeat' split at h
  all_goals first
    | exact Except.noConfusion h
    | (injection h with h2; subst h2; rfl)

/-- C5 witness: the amended theorem applied to the C1 layer. -/
theorem C5_reverse_shift_witness :
    (⟨[2, 4, 16, 16], true⟩ : ForwardResult).reverseShiftApplied =
      decide (1 < stC1.order) :=
  C5_reverse_shift_iff_order_gt_one stC1 [2, 3, 16, 16] none
    ⟨[2, 4, 16, 16], true⟩ rfl

/-- C9: `get_contract_fun` with `implementation="factorized"` and a
factorized weight whose name is not recognized (does not end, case
insensitively, in dense/tucker/tt/cp) fails with the
unsupported-representation `ValueError` naming the unexpected kind; an
`implementation` string that is neither `"reconstructed"` nor
`"factorized"` fails with the configuration `ValueError`, for every
weight. -/
theorem C9_dispatch_errors (name impl : String) (sep : Bool) (w : WeightRep)
    (h1 : pyEndsWith (pyLower name) "dense" = false)
    (h2 : pyEndsWith (pyLower name) "tucker" = false)
    (h3 : pyEndsWith (pyLower name) "tt" = false)
    (h4 : pyEndsWith (pyLower name) "cp" = false)
    (h5 : impl ≠ "reconstructed") (h6 : impl ≠ "factorized") :
    get_contract_fun (WeightRep.factorized name) "factorized" sep =
      Except.error ("Got unexpected factorized weight type " ++ name) ∧
    get_contract_fun w impl sep =
      Except.error ("Got implementation=" ++ impl ++
        ", expected \"reconstructed\" or \"factorized\"") := by
  constructor
  · simp [get_contract_fun, h1, h2, h3, h4]
  · simp [get_contract_fun, h5, h6]

/-- C9 witness: an unrecognized factorization name and a misspelled
implementation string. -/
theorem C9_dispatch_errors_witness :
    get_contract_fun (WeightRep.factorized "ComplexMadeUpKind") "factorized"
        false =
      Except.error ("Got unexpected factorized weight type " ++
        "ComplexMadeUpKind") ∧
    get_contract_fun WeightRep.tensor "reconstruted" false =
      Except.error ("Got implementation=" ++ "reconstruted" ++
        ", expected \"reconstructed\" or \"factorized\"") :=
  C9_dispatch_errors "ComplexMadeUpKind" "reconstruted" false WeightRep.tensor
    (by decide) (by decide) (by decide) (by decide) (by decide) (by decide)

/-- C10: every successful construction creates the weight through
`FactorizedTensor.new` — a `None` factorization argument is replaced by the
name `"Dense"` before the weight-creation branch, so the branch that would
build `torch.tensor(weight_shape, dtype=torch.cfloat)` (a tensor holding the
shape values, not a tensor of that shape) is unreachable for every input. -/
theorem C10_weight_via_factorized_new (in_c out_c : Nat) (nm : Nat ⊕ List Nat)
    (mnm : Option (Nat ⊕ List Nat)) (b sep : Bool) (osf : Option (List Rat))
    (prec : String) (fact : Option String) (impl : String) (cd : Bool)
    (fn : String) (st : SpectralConvState)
    (h : initSpectralConv in_c out_c nm mnm b sep osf prec fact impl cd fn =
      Except.ok st) :
    st.weightCreation = WeightCreation.factorizedNew := by
  cases fact <;>
    (simp only [initSpectralConv, Option.isNone] at h
     repeat' split at h
     all_goals first
       | exact Except.noConfusion h
       | (injection h with h2; subst h2; rfl)
       | simp_all)

/-- C10 witness: the default construction (`factorization=None`) takes the
`FactorizedTensor.new` branch. -/
theorem C10_weight_via_factorized_new_witness :
    stC1.weightCreation = WeightCreation.factorizedNew :=
  C10_weight_via_factorized_new 3 4 (Sum.inr [8, 8]) none true false none
    "full" none "reconstructed" false "backward" stC1 rfl

/-! ### Slice-resolution lemmas. -/

theorem clampIdx_cast (n m : Nat) (h : m ≤ n) : clampIdx n (m : Int) = m := by
  unfold clampIdx
  rw [if_neg (by omega)]
  omega

theorem clampIdx_neg_cast (n m : Nat) (hm : 0 < m) (h : m ≤ n) :
    clampIdx n (-(m : Int)) = n - m := by
  unfold clampIdx
  rw [if_pos (by omega)]
  omega

/-- C3: in forward, the per-axis start offset is
`max_modes − min(current_transformed_size, active_n_modes)`; the weight is
sliced with all channel axes whole (one full slice when separable, two
otherwise); every centered spatial axis with offset `s` (all axes on complex
data, all but the last on real data) is windowed symmetrically — resolved
window `[s/2, n − (s − s/2))`, trimming `s` entries split as evenly as
possible — while on real data the last axis is windowed asymmetrically as
`[0, n − s)`. -/
theorem C3_start_offsets_and_weight_windows (sep cd : Bool)
    (fft_size nModes maxN : List Nat) :
    (∀ i, i < (computeStarts fft_size nModes maxN).length →
      (computeStarts fft_size nModes maxN).getD i 0 =
        ((maxN.getD i 0 : Nat) : Int) -
          ((min (fft_size.getD i 0) (nModes.getD i 0) : Nat) : Int)) ∧
    (∀ sl, weightSliceList sep cd (computeStarts fft_size nModes maxN) =
        Except.ok sl →
      sl = (if sep then [sliceAll] else [sliceAll, sliceAll]) ++
        (if cd then (computeStarts fft_size nModes maxN).map modeSlice
         else (computeStarts fft_size nModes maxN).dropLast.map modeSlice ++
           [lastRealSlice ((computeStarts fft_size nModes maxN).getLastD 0)])) ∧
    (∀ (s : Int) (n : Nat), 0 ≤ s → s.toNat ≤ n →
      (modeSlice s).startIdx n = s.toNat / 2 ∧
      (modeSlice s).stopIdx n = n - (s.toNat - s.toNat / 2) ∧
      (lastRealSlice s).startIdx n = 0 ∧
      (lastRealSlice s).stopIdx n = n - s.toNat) ∧
    (∀ n : Nat, sliceAll.startIdx n = 0 ∧ sliceAll.stopIdx n = n) := by
  refine ⟨computeStarts_getD fft_size nModes maxN, ?_, ?_, ?_⟩
  · intro sl hsl
    generalize computeStarts fft_size nModes maxN = starts at hsl ⊢
    cases cd with
    | true =>
      simp only [weightSliceList, spatialSlices, if_pos] at hsl
      simp only [if_true] at hsl ⊢
      cases hsl
      simp
    | false =>
      cases starts with
      | nil =>
        simp only [weightSliceList, spatialSlices] at hsl
        exact Except.noConfusion hsl
      | cons a rest =>
        simp only [weightSliceList, spatialSlices] at hsl
        simp only [Bool.false_eq_true, if_false] at hsl ⊢
        cases hsl
        simp
  · intro s n hs hsn
    obtain ⟨k, rfl⟩ : ∃ k : Nat, s = (k : Int) :=
      ⟨s.toNat, (Int.toNat_of_nonneg hs).symm⟩
    rw [Int.toNat_natCast] at hsn ⊢
    rcases Nat.eq_zero_or_pos k with hk | hk
    · subst hk
      refine ⟨?_, ?_, ?_, ?_⟩ <;>
        simp [modeSlice, lastRealSlice, PySlice.startIdx, PySlice.stopIdx,
          clampIdx]
    · have hne : ((k : Int)) ≠ 0 := by
        exact_mod_cast Nat.pos_iff_ne_zero.mp hk
      have hk2 : k / 2 ≤ n := by omega
      have hk3 : 0 < (k + 1) / 2 := by omega
      have hk4 : (k + 1) / 2 ≤ n := by omega
      refine ⟨?_, ?_, ?_, ?_⟩
      · simp only [modeSlice, if_pos hne, PySlice.startIdx]
        rw [fdiv_two_cast, clampIdx_cast n (k / 2) hk2]
      · simp only [modeSlice, if_pos hne, PySlice.stopIdx]
        rw [fdiv_two_neg_cast, clampIdx_neg_cast n ((k + 1) / 2) hk3 hk4]
        omega
      · simp only [lastRealSlice, if_pos hne, PySlice.startIdx]
      · simp only [lastRealSlice, if_pos hne, PySlice.stopIdx]
        rw [clampIdx_neg_cast n k hk hsn]
  · intro n
    exact ⟨rfl, rfl⟩

/-- C3 witness: offsets and windows for `fft_size=[16,9]`, `n_modes=[8,5]`,
`max_n_modes=[10,6]` (offsets `[2,1]`). -/
theorem C3_start_offsets_witness :
    (computeStarts [16, 9] [8, 5] [10, 6]).getD 0 0 = 2 ∧
    weightSliceList false false (computeStarts [16, 9] [8, 5] [10, 6]) =
      Except.ok ([sliceAll, sliceAll] ++
        ([modeSlice 2] ++ [lastRealSlice 1])) ∧
    (modeSlice 2).startIdx 10 = 1 ∧
    (modeSlice 2).stopIdx 10 = 9 ∧
    (lastRealSlice 1).startIdx 6 = 0 ∧
    (lastRealSlice 1).stopIdx 6 = 5 := by
  have h := C3_start_offsets_and_weight_windows false false [16, 9] [8, 5] [10, 6]
  have h2 := h.2.2.1 2 10 (by decide) (by decide)
  have h1 := h.2.2.1 1 6 (by decide) (by decide)
  refine ⟨?_, rfl, ?_, ?_, ?_, ?_⟩
  · simpa using h.1 0 (by simp [computeStarts])
  · simpa using h2.1
  · simpa using h2.2.1
  · simpa using h1.2.2.1
  · simpa using h1.2.2.2

/-- C4: in forward, with `n_modes` strictly below the transformed size on
some axis, every position of the output spectrum buffer that lies outside
the sliced activation window is exactly zero immediately before the inverse
transform (i.e. after the scatter of the contraction result and the final
`fftshift`, whose source position for the queried index falls outside the
window). -/
theorem C4_zero_outside_window {α : Type} [Zero α]
    (st : SpectralConvState) (b : Nat) (fft_size : List Nat)
    (starts2 : List Int) (sx : List PySlice) (result : PyTensor α)
    (idx : List Nat)
    (hmodes : ∃ i, i < st.nModes.length ∧ i < fft_size.length ∧
      st.nModes.getD i 0 < fft_size.getD i 0)
    (hsl : xSliceList st.complexData starts2 = Except.ok sx)
    (hout : inSliceWindow sx (b :: st.out_channels :: fft_size)
      (if 1 < st.order then
        fftshiftSrcIdx (b :: st.out_channels :: fft_size) (shiftAxes st.order) idx
       else idx) = false) :
    (outFftBeforeInverse st.order (b :: st.out_channels :: fft_size) sx
      result).data idx = 0 := by
  unfold outFftBeforeInverse
  by_cases ho : 1 < st.order
  · rw [if_pos ho] at hout
    rw [if_pos ho]
    simp [fftshiftTensor, setSlice, zerosTensor, hout]
  · rw [if_neg ho] at hout
    rw [if_neg ho]
    simp [setSlice, zerosTensor, hout]

/-- The slice window of the C1 layer's forward call on a `(2, c, 16, 16)`
input: `slices_x = [:, :, 4:-4, :-4]`. -/
def sxC4 : List PySlice := [sliceAll, sliceAll, modeSlice 8, lastRealSlice 4]

/-- C4 witness: on the C1 layer's buffer `(2, 4, 16, 9)` the position
`[0, 0, 0, 8]` (outside the window after the reverse shift) is zero, for a
contraction result filled with the nonzero constant 7. -/
theorem C4_zero_outside_window_witness :
    (outFftBeforeInverse (α := Int) stC1.order [2, 4, 16, 9] sxC4
      ⟨[2, 4, 8, 5], fun _ => 7⟩).data [0, 0, 0, 8] = 0 :=
  C4_zero_outside_window stC1 2 [16, 9] [8, 4] sxC4 ⟨[2, 4, 8, 5], fun _ => 7⟩
    [0, 0, 0, 8] ⟨0, by decide⟩ rfl (by decide)

end FNO
